import Mathlib

/-!
Shallow embedding of the DynamicDashboard repository (airbnb_analytics.py,
dynamic_dashboard_mongo.py, dynamic_dashboard_df.py) for checking its
specification. Documents from the store are modelled as ordered association
lists (Python dicts preserve insertion order and never hold duplicate keys),
numbers as rationals (every decimal numeral the claims touch is exactly
representable), and operations that can raise are modelled with Option.
-/

set_option maxHeartbeats 1000000

/-- Values stored in documents coming from the document store: null, booleans,
numbers, strings, driver decimal wrappers (Decimal128, carrying the decimal
numeral it wraps), lists and nested documents. -/
inductive Value where
  | vNull : Value
  | vBool (b : Bool) : Value
  | vNum (q : Rat) : Value
  | vStr (s : String) : Value
  | vDec (s : String) : Value
  | vList (elems : List Value) : Value
  | vDict (fields : List (String × Value)) : Value
deriving Repr

mutual

/-- Structural boolean equality on values (deriving cannot handle the nested
occurrences of Value under List, so it is spelled out). -/
def beqV : Value → Value → Bool
  | .vNull, .vNull => true
  | .vBool x, .vBool y => x == y
  | .vNum x, .vNum y => x == y
  | .vStr x, .vStr y => x == y
  | .vDec x, .vDec y => x == y
  | .vList xs, .vList ys => beqListV xs ys
  | .vDict xs, .vDict ys => beqFieldsV xs ys
  | _, _ => false

/-- Elementwise beqV on lists of values. -/
def beqListV : List Value → List Value → Bool
  | [], [] => true
  | x :: xs, y :: ys => beqV x y && beqListV xs ys
  | _, _ => false

/-- Elementwise beqV on association lists. -/
def beqFieldsV : List (String × Value) → List (String × Value) → Bool
  | [], [] => true
  | (k1, v1) :: xs, (k2, v2) :: ys => k1 == k2 && beqV v1 v2 && beqFieldsV xs ys
  | _, _ => false

end

mutual

theorem beqV_refl : (a : Value) → beqV a a = true
  | .vNull => rfl
  | .vBool x => by simp [beqV]
  | .vNum x => by simp [beqV]
  | .vStr x => by simp [beqV]
  | .vDec x => by simp [beqV]
  | .vList xs => by simp [beqV, beqListV_refl xs]
  | .vDict xs => by simp [beqV, beqFieldsV_refl xs]

theorem beqListV_refl : (xs : List Value) → beqListV xs xs = true
  | [] => rfl
  | x :: xs => by simp [beqListV, beqV_refl x, beqListV_refl xs]

theorem beqFieldsV_refl : (xs : List (String × Value)) → beqFieldsV xs xs = true
  | [] => rfl
  | (k, v) :: xs => by simp [beqFieldsV, beqV_refl v, beqFieldsV_refl xs]

end

mutual

theorem beqV_sound : (a b : Value) → beqV a b = true → a = b
  | .vNull, .vNull, _ => rfl
  | .vBool x, .vBool y, h => by simp [beqV] at h; rw [h]
  | .vNum x, .vNum y, h => by simp [beqV] at h; rw [h]
  | .vStr x, .vStr y, h => by simp [beqV] at h; rw [h]
  | .vDec x, .vDec y, h => by simp [beqV] at h; rw [h]
  | .vList xs, .vList ys, h => by
      simp only [beqV] at h
      rw [beqListV_sound xs ys h]
  | .vDict xs, .vDict ys, h => by
      simp only [beqV] at h
      rw [beqFieldsV_sound xs ys h]
  | .vNull, .vBool _, h => by simp [beqV] at h
  | .vNull, .vNum _, h => by simp [beqV] at h
  | .vNull, .vStr _, h => by simp [beqV] at h
  | .vNull, .vDec _, h => by simp [beqV] at h
  | .vNull, .vList _, h => by simp [beqV] at h
  | .vNull, .vDict _, h => by simp [beqV] at h
  | .vBool _, .vNull, h => by simp [beqV] at h
  | .vBool _, .vNum _, h => by simp [beqV] at h
  | .vBool _, .vStr _, h => by simp [beqV] at h
  | .vBool _, .vDec _, h => by simp [beqV] at h
  | .vBool _, .vList _, h => by simp [beqV] at h
  | .vBool _, .vDict _, h => by simp [beqV] at h
  | .vNum _, .vNull, h => by simp [beqV] at h
  | .vNum _, .vBool _, h => by simp [beqV] at h
  | .vNum _, .vStr _, h => by simp [beqV] at h
  | .vNum _, .vDec _, h => by simp [beqV] at h
  | .vNum _, .vList _, h => by simp [beqV] at h
  | .vNum _, .vDict _, h => by simp [beqV] at h
  | .vStr _, .vNull, h => by simp [beqV] at h
  | .vStr _, .vBool _, h => by simp [beqV] at h
  | .vStr _, .vNum _, h => by simp [beqV] at h
  | .vStr _, .vDec _, h => by simp [beqV] at h
  | .vStr _, .vList _, h => by simp [beqV] at h
  | .vStr _, .vDict _, h => by simp [beqV] at h
  | .vDec _, .vNull, h => by simp [beqV] at h
  | .vDec _, .vBool _, h => by simp [beqV] at h
  | .vDec _, .vNum _, h => by simp [beqV] at h
  | .vDec _, .vStr _, h => by simp [beqV] at h
  | .vDec _, .vList _, h => by simp [beqV] at h
  | .vDec _, .vDict _, h => by simp [beqV] at h
  | .vList _, .vNull, h => by simp [beqV] at h
  | .vList _, .vBool _, h => by simp [beqV] at h
  | .vList _, .vNum _, h => by simp [beqV] at h
  | .vList _, .vStr _, h => by simp [beqV] at h
  | .vList _, .vDec _, h => by simp [beqV] at h
  | .vList _, .vDict _, h => by simp [beqV] at h
  | .vDict _, .vNull, h => by simp [beqV] at h
  | .vDict _, .vBool _, h => by simp [beqV] at h
  | .vDict _, .vNum _, h => by simp [beqV] at h
  | .vDict _, .vStr _, h => by simp [beqV] at h
  | .vDict _, .vDec _, h => by simp [beqV] at h
  | .vDict _, .vList _, h => by simp [beqV] at h

theorem beqListV_sound : (xs ys : List Value) → beqListV xs ys = true → xs = ys
  | [], [], _ => rfl
  | x :: xs, y :: ys, h => by
      simp only [beqListV, Bool.and_eq_true] at h
      rw [beqV_sound x y h.1, beqListV_sound xs ys h.2]
  | [], _ :: _, h => by simp [beqListV] at h
  | _ :: _, [], h => by simp [beqListV] at h

theorem beqFieldsV_sound :
    (xs ys : List (String × Value)) → beqFieldsV xs ys = true → xs = ys
  | [], [], _ => rfl
  | (k1, v1) :: xs, (k2, v2) :: ys, h => by
      simp only [beqFieldsV, Bool.and_eq_true] at h
      obtain ⟨⟨hk, hv⟩, ht⟩ := h
      rw [eq_of_beq hk, beqV_sound v1 v2 hv, beqFieldsV_sound xs ys ht]
  | [], _ :: _, h => by simp [beqFieldsV] at h
  | _ :: _, [], h => by simp [beqFieldsV] at h

end

instance : DecidableEq Value := fun a b =>
  if h : beqV a b = true then isTrue (beqV_sound a b h)
  else isFalse (fun he => h (he ▸ beqV_refl a))

/-- A document (or a flattened row): an ordered association list, the shape of
a Python dict. -/
abbrev Doc := List (String × Value)

/-- Python dict assignment d[k] = v: update the entry in place when the key is
already present, otherwise append the new entry at the end. -/
def insertKV {α : Type} : List (String × α) → String → α → List (String × α)
  | [], k, v => [(k, v)]
  | (k1, v1) :: t, k, v =>
      if k1 = k then (k1, v) :: t else (k1, v1) :: insertKV t k v

/-- Python dict lookup d.get(k). -/
def lookupKV {α : Type} : List (String × α) → String → Option α
  | [], _ => none
  | (k1, v1) :: t, k => if k1 = k then some v1 else lookupKV t k

/-- Python dict.update(other): assign every pair of other, in order. -/
def updateKVs {α : Type} (d : List (String × α)) (other : List (String × α)) :
    List (String × α) :=
  other.foldl (fun acc kv => insertKV acc kv.1 kv.2) d

/-- Keys of a document, in order. -/
def keys {α : Type} (d : List (String × α)) : List String := d.map Prod.fst

/-- Whether a value is a nested document (a Python dict). -/
def isDict : Value → Bool
  | .vDict _ => true
  | _ => false

/-- A document with at most one level of dict nesting: every dict value has
only non-dict values inside. -/
def oneLevel (doc : Doc) : Bool :=
  doc.all (fun kv =>
    match kv.2 with
    | .vDict sub => sub.all (fun skv => !(isDict skv.2))
    | _ => true)

/-- Digits of a decimal numeral read as a natural number; none on an empty or
non-digit input. -/
def parseDigits (cs : List Char) : Option Nat :=
  if cs.isEmpty then none else
  cs.foldl
    (fun acc c =>
      acc.bind (fun n => if c.isDigit then some (10 * n + (c.toNat - 48)) else none))
    (some 0)

/-- Nonnegative decimal numeral with an optional fractional part, read exactly
as a rational. -/
def parseUnsignedNum (cs : List Char) : Option Rat :=
  match parseDigits (cs.takeWhile Char.isDigit) with
  | none => none
  | some n =>
    match cs.dropWhile Char.isDigit with
    | [] => some (n : Rat)
    | '.' :: frac =>
      match parseDigits frac with
      | none => none
      | some f => some ((n : Rat) + (f : Rat) / ((10 : Rat) ^ frac.length))
    | _ => none

/-- Decimal numeral with an optional sign, as accepted by float(...) and by the
pandas numeric parser for the plain numerals this system handles (scientific
notation never arises in the claims). -/
def parseNum (s : String) : Option Rat :=
  match s.toList with
  | '-' :: cs => (parseUnsignedNum cs).map (fun q => -q)
  | cs => parseUnsignedNum cs

namespace AirbnbAnalytics

/-- Configuration constant DEFAULT_NUMERIC from airbnb_analytics.py. -/
def DEFAULT_NUMERIC : Rat := 0

/-- Configuration constant MAX_SAMPLE_SIZE from airbnb_analytics.py. -/
def MAX_SAMPLE_SIZE : Nat := 1000

/-- safe_convert from airbnb_analytics.py: a Decimal128 value becomes the float
of its decimal (DEFAULT_NUMERIC when that conversion fails); every other value,
dicts included, is returned unchanged. -/
def safe_convert (v : Value) : Value :=
  match v with
  | .vDec s =>
    match parseNum s with
    | some q => .vNum q
    | none => .vNum DEFAULT_NUMERIC
  | _ => v

/-- Body of the loop of safe_flatten from airbnb_analytics.py for one entry of
the document: a dict value has its immediate sub-entries assigned under
compound keys, any other value is assigned under its own key, with
safe_convert applied to what is assigned. The per-item try/except pass of the
source never fires for these pure dict operations and is modelled as a
no-op. -/
def flattenStep (flat : Doc) (kv : String × Value) : Doc :=
  match kv.2 with
  | .vDict sub =>
      sub.foldl (fun fl skv => insertKV fl (kv.1 ++ "_" ++ skv.1) (safe_convert skv.2)) flat
  | _ => insertKV flat kv.1 (safe_convert kv.2)

/-- safe_flatten from airbnb_analytics.py: one pass over the document merging
exactly one level of nesting into a fresh dict. -/
def safe_flatten (doc : Doc) : Doc := doc.foldl flattenStep []

/-- Target dtypes of the numeric_config table of safe_dataframe. -/
inductive DType where
  | dfloat : DType
  | dint : DType
  | dbool : DType
deriving DecidableEq, Repr

/-- The numeric_config table of safe_dataframe from airbnb_analytics.py:
(source column, destination column, target dtype). -/
def numeric_config : List (String × String × DType) :=
  [("price_$numberDecimal", ("price", DType.dfloat)),
   ("cleaning_fee_$numberDecimal", ("cleaning_fee", DType.dfloat)),
   ("review_scores_review_scores_rating_$numberInt", ("review_rating", DType.dint)),
   ("accommodates_$numberInt", ("accommodates", DType.dint)),
   ("bedrooms_$numberInt", ("bedrooms", DType.dint)),
   ("bathrooms_$numberDecimal", ("bathrooms", DType.dfloat)),
   ("host_host_is_superhost", ("host_is_superhost", DType.dbool))]

/-- Model of pd.to_numeric with errors coerced: numbers and booleans are
numeric, strings are parsed as numerals, everything else (null, lists, dicts,
raw Decimal128 objects) coerces to NaN, modelled as none. -/
def to_numeric : Value → Option Rat
  | .vNum q => some q
  | .vBool b => some (if b then 1 else 0)
  | .vStr s => parseNum s
  | _ => none

/-- Model of astype on a single number: float keeps the value, int truncates
toward zero as Python int(...) does, bool is the nonzero test. -/
def castDType (t : DType) (q : Rat) : Value :=
  match t with
  | .dfloat => .vNum q
  | .dint => .vNum ((Int.tdiv q.num (q.den : Int) : Int) : Rat)
  | .dbool => .vBool (decide (q ≠ 0))

/-- A key names a column of pd.DataFrame(data) exactly when some row has it. -/
def hasColumn (data : List Doc) (k : String) : Bool :=
  data.any (fun row => (lookupKV row k).isSome)

/-- Value that safe_dataframe assigns to a destination column on one row: when
the source column exists, pd.to_numeric with coercion, NaN filled with
DEFAULT_NUMERIC, cast to the target dtype; when the source column is absent
from the whole frame, the dtype applied to DEFAULT_NUMERIC. -/
def derivedValue (data : List Doc) (src : String) (t : DType) (row : Doc) : Value :=
  if hasColumn data src then
    castDType t (((lookupKV row src).bind to_numeric).getD DEFAULT_NUMERIC)
  else
    castDType t DEFAULT_NUMERIC

/-- The coordinate lambda of safe_dataframe: a two-element list [lon, lat]
becomes the pair (lat, lon); anything else (including a missing value, NaN in
the frame) becomes (None, None). -/
def coordOf : Option Value → Value × Value
  | some (.vList [x0, x1]) => (x1, x0)
  | _ => (.vNull, .vNull)

/-- One row of the frame safe_dataframe builds: the seven numeric_config
destination columns are assigned in order, then, when the raw coordinates
column exists in the frame, the coordinates / lat / lon columns. -/
def processRow (data : List Doc) (row : Doc) : Doc :=
  let r1 := numeric_config.foldl
    (fun r cfg => insertKV r cfg.2.1 (derivedValue data cfg.1 cfg.2.2 row)) row
  if hasColumn data ("address_location_coordinates") then
    let c := coordOf (lookupKV row ("address_location_coordinates"))
    insertKV (insertKV (insertKV r1 ("coordinates") (.vList [c.1, c.2])) ("lat") c.1)
      ("lon") c.2
  else r1

/-- safe_dataframe from airbnb_analytics.py: the frame built from the flattened
rows with the configured derived columns (the table of rows; the outer
exception handler of the source is unreachable for these pure column
operations). -/
def safe_dataframe (data : List Doc) : List Doc := data.map (processRow data)

/-- Data loading of main in airbnb_analytics.py: collection.find() with
limit MAX_SAMPLE_SIZE, modelled as a prefix of the collection. -/
def loadedData (collection : List Doc) : List Doc := collection.take MAX_SAMPLE_SIZE

end AirbnbAnalytics

/-- Outcome of one rendering operation: either the chart is drawn, or the
exception handler emitted a warning banner with the given text. -/
inductive RenderOutcome where
  | chart : RenderOutcome
  | warning (msg : String) : RenderOutcome
deriving DecidableEq, Repr

/-- Apostrophe character, used to spell source strings that contain one. -/
def apos : String := String.singleton (Char.ofNat 39)

namespace AirbnbAnalytics

/-- The try/except of render_metrics in airbnb_analytics.py: the body either
succeeds or raises some exception e; the handler ignores e and emits a fixed
warning. -/
def render_metrics (attempt : Except String Unit) : RenderOutcome :=
  match attempt with
  | .ok _ => .chart
  | .error _ => .warning ("Metrics unavailable")

/-- The try/except of render_price_analysis in airbnb_analytics.py. -/
def render_price_analysis (attempt : Except String Unit) : RenderOutcome :=
  match attempt with
  | .ok _ => .chart
  | .error _ => .warning ("Price analysis unavailable")

/-- The try/except of render_review_analysis in airbnb_analytics.py. -/
def render_review_analysis (attempt : Except String Unit) : RenderOutcome :=
  match attempt with
  | .ok _ => .chart
  | .error _ => .warning ("Review analysis unavailable")

/-- The try/except of render_amenities in airbnb_analytics.py. -/
def render_amenities (attempt : Except String Unit) : RenderOutcome :=
  match attempt with
  | .ok _ => .chart
  | .error _ => .warning ("Amenities analysis unavailable")

/-- The try/except of render_geo in airbnb_analytics.py. -/
def render_geo (attempt : Except String Unit) : RenderOutcome :=
  match attempt with
  | .ok _ => .chart
  | .error _ => .warning ("Map unavailable")

end AirbnbAnalytics

namespace DynamicDashboardDf

/-- Body of the loop of safe_flatten from dynamic_dashboard_df.py: like the
airbnb one but assigning the raw values, with no decimal conversion. -/
def flattenStep (flat : Doc) (kv : String × Value) : Doc :=
  match kv.2 with
  | .vDict sub => sub.foldl (fun fl skv => insertKV fl (kv.1 ++ "_" ++ skv.1) skv.2) flat
  | _ => insertKV flat kv.1 kv.2

/-- safe_flatten from dynamic_dashboard_df.py: one pass merging exactly one
level of nesting. -/
def safe_flatten (doc : Doc) : Doc := doc.foldl flattenStep []

/-- convert_decimals from dynamic_dashboard_df.py: a bare Decimal128 object
becomes the float of its decimal (a wrapper always carries a well-formed
numeral, so the fallback 0 of the model is unreachable); every other object,
in particular the dict rows this is applied to in main, is returned
unchanged. -/
def convert_decimals (obj : Value) : Value :=
  match obj with
  | .vDec s => .vNum ((parseNum s).getD 0)
  | _ => obj

/-- Data loading of main in dynamic_dashboard_df.py: find().limit(1000), each
document flattened and passed through convert_decimals. -/
def loadedRows (collection : List Doc) : List Value :=
  (collection.take 1000).map (fun doc => convert_decimals (.vDict (safe_flatten doc)))

/-- Warning prefix of the chart exception handler in dynamic_dashboard_df.py,
spelled with its apostrophe. -/
def chartWarningPrefix : String := "Couldn" ++ apos ++ "t render chart: "

/-- The chart rendering try/except of main in dynamic_dashboard_df.py: the
plotly call either succeeds or raises an exception with message e, and the
handler emits a warning that embeds str(e). -/
def renderChart (attempt : Except String Unit) : RenderOutcome :=
  match attempt with
  | .ok _ => .chart
  | .error e => .warning (chartWarningPrefix ++ e)

end DynamicDashboardDf

namespace DynamicDashboardMongo

/-- Compound key construction of safe_flatten in dynamic_dashboard_mongo.py:
parent_key + sep + k when the parent key is truthy (nonempty). -/
def newKey (parent_key sep k : String) : String :=
  if parent_key = "" then k else parent_key ++ sep ++ k

/-- Recursive worker of safe_flatten from dynamic_dashboard_mongo.py: items is
the dict built by the loop so far; a dict value recurses with the compound key
as parent and the result is merged with dict.update; any other value is
assigned directly under the compound key. -/
def flattenGo : Doc → Doc → String → String → Doc
  | items, [], _, _ => items
  | items, (k, Value.vDict sub) :: rest, pk, sep =>
      flattenGo (updateKVs items (flattenGo [] sub (newKey pk sep k) sep)) rest pk sep
  | items, (k, v) :: rest, pk, sep =>
      flattenGo (insertKV items (newKey pk sep k) v) rest pk sep
termination_by _ doc _ _ => sizeOf doc

/-- safe_flatten from dynamic_dashboard_mongo.py: fully recursive flattening
(the source defaults parent_key to the empty string and sep to the
underscore). -/
def safe_flatten (doc : Doc) (parent_key sep : String) : Doc :=
  flattenGo [] doc parent_key sep

/-- convert_value from dynamic_dashboard_mongo.py: Decimal128 to float,
anything else unchanged (the fallback 0 of the model is unreachable for the
well-formed numerals a wrapper carries). -/
def convert_value (v : Value) : Value :=
  match v with
  | .vDec s => .vNum ((parseNum s).getD 0)
  | _ => v

/-- One row of the METRIC_OPERATIONS table of dynamic_dashboard_mongo.py. -/
structure MetricConfig where
  operator : String
  value : Value
  requires_field : Bool
deriving DecidableEq, Repr

/-- METRIC_OPERATIONS from dynamic_dashboard_mongo.py. -/
def METRIC_OPERATIONS : List (String × MetricConfig) :=
  [("Count", ⟨"$sum", .vNum 1, false⟩),
   ("Sum", ⟨"$sum", .vStr ("$value"), true⟩),
   ("Average", ⟨"$avg", .vStr ("$value"), true⟩),
   ("Max", ⟨"$max", .vStr ("$value"), true⟩),
   ("Min", ⟨"$min", .vStr ("$value"), true⟩),
   ("Unique Count", ⟨"$addToSet", .vStr ("$value"), true⟩)]

/-- Python str.replace on character lists: replace every non-overlapping
occurrence of pat, scanning left to right (the source only calls this with a
nonempty pattern, so the empty-pattern corner of Python is not modelled). -/
def listReplace : List Char → List Char → List Char → List Char
  | [], _, _ => []
  | c :: rest, pat, rep =>
      if h : pat ≠ [] ∧ pat.isPrefixOf (c :: rest) then
        rep ++ listReplace ((c :: rest).drop pat.length) pat rep
      else c :: listReplace rest pat rep
termination_by cs _ _ => cs.length
decreasing_by
  all_goals simp_wf
  all_goals (have hp : 0 < pat.length := List.length_pos.mpr h.1; omega)

/-- Python str.replace, lifted to strings. -/
def strReplace (s pat rep : String) : String :=
  String.mk (listReplace s.toList pat.toList rep.toList)

/-- Python str.lower for the ASCII metric names this dashboard uses. -/
def strToLower (s : String) : String := String.mk (s.toList.map Char.toLower)

/-- One loop iteration of build_metric_group: none models the exceptions the
source would raise there (KeyError on an unknown metric name, AttributeError
if replace were reached on the non-string Count operand). -/
def buildMetricStep (field : String) (gs : Doc) (metric : String) : Option Doc :=
  match lookupKV METRIC_OPERATIONS metric with
  | none => none
  | some config =>
    if metric = "Count" then
      some (insertKV gs (strToLower metric) (.vDict [(config.operator, config.value)]))
    else if config.requires_field then
      match config.value with
      | .vStr s =>
          some (insertKV gs (strToLower metric)
            (.vDict [(config.operator, .vStr (strReplace s ("$value") ("$" ++ field)))]))
      | _ => none
    else some gs

/-- build_metric_group from dynamic_dashboard_mongo.py: the $group stage dict,
built from the null group key by one insertion per selected metric. -/
def build_metric_group (field : String) (metrics : List String) : Option Doc :=
  metrics.foldl (fun acc m => acc.bind (fun gs => buildMetricStep field gs m))
    (some [("_id", Value.vNull)])

/-- Operand evaluation for group accumulators (MongoDB semantics): a string
starting with the dollar sign is a field path, evaluating to the document
field or to missing (none); any other operand is a constant. The dashboard
passes top-level field names, so nested (dotted) paths are not modelled. -/
def evalOperand (doc : Doc) : Value → Option Value
  | .vStr s =>
      match s.toList with
      | '$' :: rest => lookupKV doc (String.mk rest)
      | _ => some (.vStr s)
  | v => some v

/-- MongoDB $sum accumulator: sums the numeric operand values over the group,
ignoring documents where the operand is missing or non-numeric. -/
def accumSum (operand : Value) (docs : List Doc) : Value :=
  .vNum (docs.foldl
    (fun acc doc =>
      match evalOperand doc operand with
      | some (.vNum q) => acc + q
      | _ => acc) 0)

/-- MongoDB $addToSet accumulator: the distinct operand values over the group,
in order of first appearance, skipping documents where the operand is
missing. -/
def accumAddToSet (operand : Value) (docs : List Doc) : Value :=
  .vList (docs.foldl
    (fun acc doc =>
      match evalOperand doc operand with
      | some v => if v ∈ acc then acc else acc ++ [v]
      | none => acc) [])

/-- Interpretation of one accumulator expression of a $group stage. Only the
accumulators whose values the claims inspect ($sum and $addToSet) are given
semantics; the others are left as null. -/
def runAccum (docs : List Doc) : Value → Value
  | .vDict [(op, operand)] =>
      if op = "$sum" then accumSum operand docs
      else if op = "$addToSet" then accumAddToSet operand docs
      else .vNull
  | _ => .vNull

/-- MongoDB $group with the null group key: one output document holding the
accumulator results, and no output document at all when the input is empty. -/
def runGroupNullId (group_stage : Doc) (docs : List Doc) : List Doc :=
  if docs.isEmpty then []
  else [group_stage.map (fun kv => if kv.1 = "_id" then kv else (kv.1, runAccum docs kv.2))]

/-- The metric computation of main in dynamic_dashboard_mongo.py with no custom
fields: build the $group stage, aggregate, then take element 0 of the result
list (none models the IndexError raised there when the result is empty). -/
def metricResultDoc (docs : List Doc) (field : String) (metrics : List String) :
    Option Doc :=
  (build_metric_group field metrics).bind (fun gs => (runGroupNullId gs docs).head?)

/-- The value main displays for one metric: Count and the default metrics read
result.get(metric.lower(), 0); Unique Count reads the length of
result.get(metric.lower(), []) (len of a non-list would raise, modelled
none). -/
def displayedMetric (docs : List Doc) (field : String) (metrics : List String)
    (metric : String) : Option Value :=
  (metricResultDoc docs field metrics).bind (fun result =>
    if metric = "Unique Count" then
      match (lookupKV result (strToLower metric)).getD (.vList []) with
      | .vList l => some (.vNum (l.length : Rat))
      | _ => none
    else some ((lookupKV result (strToLower metric)).getD (.vNum 0)))

/-- validate_fields from dynamic_dashboard_mongo.py. The missing-field list
comprehension only touches data[0] while iterating over required_fields, so an
empty data list raises IndexError (modelled none) exactly when some required
field is iterated; with no required fields it returns True. -/
def validate_fields (data : List Doc) (required_fields : List String) : Option Bool :=
  match required_fields with
  | [] => some true
  | _ :: _ =>
    match data with
    | [] => none
    | d0 :: _ => some (required_fields.all (fun f => (lookupKV d0 f).isSome))

/-- MongoDB $project with _id excluded and the listed fields included. -/
def runProjectStage (fields : List String) (docs : List Doc) : List Doc :=
  docs.map (fun doc => doc.filter (fun kv => decide (kv.1 ≠ "_id" ∧ kv.1 ∈ fields)))

/-- The visualization query of main in dynamic_dashboard_mongo.py with no
custom fields: a $project stage followed by a $limit 1000 stage. -/
def visQueryResults (docs : List Doc) (fields : List String) : List Doc :=
  (runProjectStage fields docs).take 1000

/-- The field-discovery query of get_available_fields: a $sample of size 10
followed by a $limit 10 stage; sampled is whatever documents the random
$sample stage emitted. -/
def sampleLimited (sampled : List Doc) : List Doc := sampled.take 10

end DynamicDashboardMongo


/-! Association-list lemmas shared by the claim proofs. -/

theorem keys_nil {α : Type} : keys ([] : List (String × α)) = [] := rfl

theorem keys_cons {α : Type} (hd : String × α) (t : List (String × α)) :
    keys (hd :: t) = hd.1 :: keys t := rfl

theorem keys_append {α : Type} (l1 l2 : List (String × α)) :
    keys (l1 ++ l2) = keys l1 ++ keys l2 := by simp [keys]

theorem lookup_insertKV_self {α : Type} (l : List (String × α)) (k : String) (v : α) :
    lookupKV (insertKV l k v) k = some v := by
  induction l with
  | nil => simp [insertKV, lookupKV]
  | cons hd t ih =>
    obtain ⟨k1, v1⟩ := hd
    by_cases hk : k1 = k
    · simp [insertKV, hk, lookupKV]
    · simp [insertKV, hk, lookupKV, ih]

theorem lookup_insertKV_ne {α : Type} (l : List (String × α)) {k1 k : String} (v : α)
    (hne : k1 ≠ k) : lookupKV (insertKV l k1 v) k = lookupKV l k := by
  induction l with
  | nil => simp [insertKV, lookupKV, hne]
  | cons hd t ih =>
    obtain ⟨k2, v2⟩ := hd
    by_cases hk : k2 = k1
    · subst hk
      simp [insertKV, lookupKV, hne]
    · by_cases hk2 : k2 = k
      · subst hk2
        rw [insertKV, if_neg hk]
        simp [lookupKV]
      · simp [insertKV, hk, lookupKV, hk2, ih]

theorem keys_insertKV {α : Type} (l : List (String × α)) (k : String) (v : α) :
    keys (insertKV l k v) = if k ∈ keys l then keys l else keys l ++ [k] := by
  induction l with
  | nil => simp [insertKV, keys]
  | cons hd t ih =>
    obtain ⟨k1, v1⟩ := hd
    by_cases hk : k1 = k
    · subst hk
      simp [insertKV, keys_cons]
    · rw [insertKV, if_neg hk, keys_cons, keys_cons, ih]
      by_cases hm : k ∈ keys t
      · simp [hm, Ne.symm hk]
      · simp [hm, Ne.symm hk]

theorem nodupKeys_insertKV {α : Type} {l : List (String × α)} (h : (keys l).Nodup)
    (k : String) (v : α) : (keys (insertKV l k v)).Nodup := by
  rw [keys_insertKV]
  by_cases hm : k ∈ keys l
  · simp [hm, h]
  · simp [hm, List.nodup_append, h]

theorem mem_insertKV_val {α : Type} {l : List (String × α)} {k : String} {v : α}
    {p : String × α} (hp : p ∈ insertKV l k v) : p.2 = v ∨ p ∈ l := by
  induction l with
  | nil =>
    simp [insertKV] at hp
    simp [hp]
  | cons hd t ih =>
    obtain ⟨k1, v1⟩ := hd
    by_cases hk : k1 = k
    · rw [insertKV, if_pos hk] at hp
      rcases List.mem_cons.mp hp with hp | hp
      · simp [hp]
      · exact Or.inr (List.mem_cons_of_mem _ hp)
    · rw [insertKV, if_neg hk] at hp
      rcases List.mem_cons.mp hp with hp | hp
      · exact Or.inr (by simp [hp])
      · rcases ih hp with h | h
        · exact Or.inl h
        · exact Or.inr (List.mem_cons_of_mem _ h)

theorem insertKV_of_not_mem {α : Type} {l : List (String × α)} {k : String}
    (hk : k ∉ keys l) (v : α) : insertKV l k v = l ++ [(k, v)] := by
  induction l with
  | nil => simp [insertKV]
  | cons hd t ih =>
    obtain ⟨k1, v1⟩ := hd
    rw [keys_cons, List.mem_cons] at hk
    push_neg at hk
    rw [insertKV, if_neg (fun h => hk.1 h.symm), ih hk.2]
    simp

theorem nodupKeys_updateKVs {α : Type} (other : List (String × α)) :
    ∀ acc : List (String × α), (keys acc).Nodup → (keys (updateKVs acc other)).Nodup := by
  induction other with
  | nil =>
    intro acc h
    simpa [updateKVs] using h
  | cons hd t ih =>
    intro acc h
    have step : updateKVs acc (hd :: t) = updateKVs (insertKV acc hd.1 hd.2) t := by
      simp [updateKVs]
    rw [step]
    exact ih _ (nodupKeys_insertKV h hd.1 hd.2)

theorem mem_updateKVs_val {α : Type} (P : α → Prop) (other : List (String × α)) :
    ∀ acc : List (String × α), (∀ p ∈ acc, P p.2) → (∀ p ∈ other, P p.2) →
    ∀ p ∈ updateKVs acc other, P p.2 := by
  induction other with
  | nil =>
    intro acc ha _ p hp
    exact ha p (by simpa [updateKVs] using hp)
  | cons hd t ih =>
    intro acc ha ho p hp
    have step : updateKVs acc (hd :: t) = updateKVs (insertKV acc hd.1 hd.2) t := by
      simp [updateKVs]
    rw [step] at hp
    refine ih _ ?_ (fun q hq => ho q (List.mem_cons_of_mem hd hq)) p hp
    intro q hq
    rcases mem_insertKV_val hq with h | h
    · rw [h]
      exact ho hd (List.mem_cons_self hd t)
    · exact ha q h

theorem updateKVs_eq_append {α : Type} (l : List (String × α)) :
    ∀ acc : List (String × α), (keys l).Nodup → (∀ k ∈ keys l, k ∉ keys acc) →
    updateKVs acc l = acc ++ l := by
  induction l with
  | nil =>
    intro acc _ _
    simp [updateKVs]
  | cons hd t ih =>
    intro acc hnd hdisj
    rw [keys_cons, List.nodup_cons] at hnd
    have hd_not : hd.1 ∉ keys acc := hdisj hd.1 (by rw [keys_cons]; exact List.mem_cons_self _ _)
    have h1 : insertKV acc hd.1 hd.2 = acc ++ [(hd.1, hd.2)] := insertKV_of_not_mem hd_not hd.2
    have step : updateKVs acc (hd :: t) = updateKVs (insertKV acc hd.1 hd.2) t := by
      simp [updateKVs]
    rw [step, h1]
    have h2 : updateKVs (acc ++ [(hd.1, hd.2)]) t = (acc ++ [(hd.1, hd.2)]) ++ t := by
      refine ih _ hnd.2 ?_
      intro k hk
      rw [keys_append, List.mem_append]
      push_neg
      constructor
      · exact hdisj k (by rw [keys_cons]; exact List.mem_cons_of_mem _ hk)
      · intro hkeq
        simp [keys] at hkeq
        rw [hkeq] at hk
        exact hnd.1 hk
    rw [h2]
    simp

/-! Lemmas about the three flatten functions. -/

theorem aa_safe_convert_idem (v : Value) :
    AirbnbAnalytics.safe_convert (AirbnbAnalytics.safe_convert v) =
      AirbnbAnalytics.safe_convert v := by
  cases v <;> simp [AirbnbAnalytics.safe_convert]
  case vDec s => cases hp : parseNum s <;> simp [AirbnbAnalytics.safe_convert]

theorem aa_isDict_safe_convert (v : Value) :
    isDict (AirbnbAnalytics.safe_convert v) = isDict v := by
  cases v <;> simp [AirbnbAnalytics.safe_convert, isDict]
  case vDec s => cases hp : parseNum s <;> simp [isDict]

theorem aa_flattenStep_nondict {v : Value} (hv : isDict v = false) (flat : Doc)
    (k : String) :
    AirbnbAnalytics.flattenStep flat (k, v) =
      insertKV flat k (AirbnbAnalytics.safe_convert v) := by
  cases v <;> first
    | rfl
    | simp [isDict] at hv

theorem aa_flattenStep_dict (flat : Doc) (k : String) (sub : List (String × Value)) :
    AirbnbAnalytics.flattenStep flat (k, Value.vDict sub) =
      updateKVs flat
        (sub.map (fun skv => (k ++ "_" ++ skv.1, AirbnbAnalytics.safe_convert skv.2))) := by
  simp [AirbnbAnalytics.flattenStep, updateKVs, List.foldl_map]

theorem aa_flatten_fold_invariant (d : Doc) :
    ∀ acc : Doc, oneLevel d = true → (keys acc).Nodup →
      (∀ p ∈ acc, isDict p.2 = false ∧ AirbnbAnalytics.safe_convert p.2 = p.2) →
      (keys (d.foldl AirbnbAnalytics.flattenStep acc)).Nodup ∧
      (∀ p ∈ d.foldl AirbnbAnalytics.flattenStep acc,
        isDict p.2 = false ∧ AirbnbAnalytics.safe_convert p.2 = p.2) := by
  induction d with
  | nil =>
    intro acc _ h1 h2
    rw [List.foldl_nil]
    exact ⟨h1, h2⟩
  | cons hd t ih =>
    intro acc hone h1 h2
    rw [List.foldl_cons]
    rw [oneLevel, List.all_cons, Bool.and_eq_true] at hone
    obtain ⟨k, v⟩ := hd
    have hins : ∀ v1 : Value, isDict v1 = false →
        (keys (insertKV acc k (AirbnbAnalytics.safe_convert v1))).Nodup ∧
        (∀ p ∈ insertKV acc k (AirbnbAnalytics.safe_convert v1),
          isDict p.2 = false ∧ AirbnbAnalytics.safe_convert p.2 = p.2) := by
      intro v1 hv1
      constructor
      · exact nodupKeys_insertKV h1 _ _
      · intro p hp
        rcases mem_insertKV_val hp with h | h
        · rw [h]
          exact ⟨by rw [aa_isDict_safe_convert]; exact hv1, aa_safe_convert_idem v1⟩
        · exact h2 p h
    have hstep : (keys (AirbnbAnalytics.flattenStep acc (k, v))).Nodup ∧
        (∀ p ∈ AirbnbAnalytics.flattenStep acc (k, v),
          isDict p.2 = false ∧ AirbnbAnalytics.safe_convert p.2 = p.2) := by
      cases v with
      | vDict sub =>
        rw [aa_flattenStep_dict]
        have h4 : sub.all (fun skv => !(isDict skv.2)) = true := hone.1
        rw [List.all_eq_true] at h4
        constructor
        · exact nodupKeys_updateKVs _ acc h1
        · refine mem_updateKVs_val
            (fun x => isDict x = false ∧ AirbnbAnalytics.safe_convert x = x) _ acc h2 ?_
          intro p hp
          rw [List.mem_map] at hp
          obtain ⟨skv, hskv, hpe⟩ := hp
          have hnd : isDict skv.2 = false := by simpa using h4 skv hskv
          constructor
          · rw [← hpe]
            simpa [aa_isDict_safe_convert] using hnd
          · rw [← hpe]
            simpa using aa_safe_convert_idem skv.2
      | vNull => rw [aa_flattenStep_nondict (by simp [isDict])]; exact hins _ (by simp [isDict])
      | vBool b => rw [aa_flattenStep_nondict (by simp [isDict])]; exact hins _ (by simp [isDict])
      | vNum q => rw [aa_flattenStep_nondict (by simp [isDict])]; exact hins _ (by simp [isDict])
      | vStr s => rw [aa_flattenStep_nondict (by simp [isDict])]; exact hins _ (by simp [isDict])
      | vDec s => rw [aa_flattenStep_nondict (by simp [isDict])]; exact hins _ (by simp [isDict])
      | vList l => rw [aa_flattenStep_nondict (by simp [isDict])]; exact hins _ (by simp [isDict])
    exact ih _ (by rw [oneLevel]; exact hone.2) hstep.1 hstep.2

theorem aa_flatten_invariant (d : Doc) (hone : oneLevel d = true) :
    (keys (AirbnbAnalytics.safe_flatten d)).Nodup ∧
    (∀ p ∈ AirbnbAnalytics.safe_flatten d,
      isDict p.2 = false ∧ AirbnbAnalytics.safe_convert p.2 = p.2) :=
  aa_flatten_fold_invariant d [] hone (by simp [keys]) (by simp)

theorem aa_foldl_flattenStep_flat (l : Doc) :
    ∀ acc : Doc,
      (∀ p ∈ l, isDict p.2 = false ∧ AirbnbAnalytics.safe_convert p.2 = p.2) →
      l.foldl AirbnbAnalytics.flattenStep acc = updateKVs acc l := by
  induction l with
  | nil =>
    intro acc _
    simp [updateKVs]
  | cons hd t ih =>
    intro acc hl
    obtain ⟨k, v⟩ := hd
    have hhd := hl (k, v) (List.mem_cons_self _ _)
    rw [List.foldl_cons, aa_flattenStep_nondict hhd.1, hhd.2,
      ih _ (fun p hp => hl p (List.mem_cons_of_mem _ hp))]
    simp [updateKVs]

theorem aa_flatten_of_flat (l : Doc)
    (hl : ∀ p ∈ l, isDict p.2 = false ∧ AirbnbAnalytics.safe_convert p.2 = p.2)
    (hnd : (keys l).Nodup) : AirbnbAnalytics.safe_flatten l = l := by
  rw [AirbnbAnalytics.safe_flatten, aa_foldl_flattenStep_flat l [] hl,
    updateKVs_eq_append l [] hnd (by simp [keys])]
  simp

theorem df_flattenStep_nondict {v : Value} (hv : isDict v = false) (flat : Doc)
    (k : String) :
    DynamicDashboardDf.flattenStep flat (k, v) = insertKV flat k v := by
  cases v <;> first
    | rfl
    | simp [isDict] at hv

theorem df_flattenStep_dict (flat : Doc) (k : String) (sub : List (String × Value)) :
    DynamicDashboardDf.flattenStep flat (k, Value.vDict sub) =
      updateKVs flat (sub.map (fun skv => (k ++ "_" ++ skv.1, skv.2))) := by
  simp [DynamicDashboardDf.flattenStep, updateKVs, List.foldl_map]

theorem df_flatten_fold_invariant (d : Doc) :
    ∀ acc : Doc, oneLevel d = true → (keys acc).Nodup →
      (∀ p ∈ acc, isDict p.2 = false) →
      (keys (d.foldl DynamicDashboardDf.flattenStep acc)).Nodup ∧
      (∀ p ∈ d.foldl DynamicDashboardDf.flattenStep acc, isDict p.2 = false) := by
  induction d with
  | nil =>
    intro acc _ h1 h2
    rw [List.foldl_nil]
    exact ⟨h1, h2⟩
  | cons hd t ih =>
    intro acc hone h1 h2
    rw [List.foldl_cons]
    rw [oneLevel, List.all_cons, Bool.and_eq_true] at hone
    obtain ⟨k, v⟩ := hd
    have hins : ∀ v1 : Value, isDict v1 = false →
        (keys (insertKV acc k v1)).Nodup ∧
        (∀ p ∈ insertKV acc k v1, isDict p.2 = false) := by
      intro v1 hv1
      refine ⟨nodupKeys_insertKV h1 _ _, ?_⟩
      intro p hp
      rcases mem_insertKV_val hp with h | h
      · rw [h]; exact hv1
      · exact h2 p h
    have hstep : (keys (DynamicDashboardDf.flattenStep acc (k, v))).Nodup ∧
        (∀ p ∈ DynamicDashboardDf.flattenStep acc (k, v), isDict p.2 = false) := by
      cases v with
      | vDict sub =>
        rw [df_flattenStep_dict]
        have h4 : sub.all (fun skv => !(isDict skv.2)) = true := hone.1
        rw [List.all_eq_true] at h4
        constructor
        · exact nodupKeys_updateKVs _ acc h1
        · refine mem_updateKVs_val (fun x => isDict x = false) _ acc h2 ?_
          intro p hp
          rw [List.mem_map] at hp
          obtain ⟨skv, hskv, hpe⟩ := hp
          have hnd : isDict skv.2 = false := by simpa using h4 skv hskv
          rw [← hpe]
          simpa using hnd
      | vNull => rw [df_flattenStep_nondict (by simp [isDict])]; exact hins _ (by simp [isDict])
      | vBool b => rw [df_flattenStep_nondict (by simp [isDict])]; exact hins _ (by simp [isDict])
      | vNum q => rw [df_flattenStep_nondict (by simp [isDict])]; exact hins _ (by simp [isDict])
      | vStr s => rw [df_flattenStep_nondict (by simp [isDict])]; exact hins _ (by simp [isDict])
      | vDec s => rw [df_flattenStep_nondict (by simp [isDict])]; exact hins _ (by simp [isDict])
      | vList l => rw [df_flattenStep_nondict (by simp [isDict])]; exact hins _ (by simp [isDict])
    exact ih _ (by rw [oneLevel]; exact hone.2) hstep.1 hstep.2

theorem df_foldl_flattenStep_flat (l : Doc) :
    ∀ acc : Doc, (∀ p ∈ l, isDict p.2 = false) →
      l.foldl DynamicDashboardDf.flattenStep acc = updateKVs acc l := by
  induction l with
  | nil =>
    intro acc _
    simp [updateKVs]
  | cons hd t ih =>
    intro acc hl
    obtain ⟨k, v⟩ := hd
    have hhd := hl (k, v) (List.mem_cons_self _ _)
    rw [List.foldl_cons, df_flattenStep_nondict hhd,
      ih _ (fun p hp => hl p (List.mem_cons_of_mem _ hp))]
    simp [updateKVs]

theorem df_flatten_of_flat (l : Doc) (hl : ∀ p ∈ l, isDict p.2 = false)
    (hnd : (keys l).Nodup) : DynamicDashboardDf.safe_flatten l = l := by
  rw [DynamicDashboardDf.safe_flatten, df_foldl_flattenStep_flat l [] hl,
    updateKVs_eq_append l [] hnd (by simp [keys])]
  simp

theorem ddm_isDict_false_of_ne_dict {v : Value}
    (hne : ∀ sub : List (String × Value), v = Value.vDict sub → False) :
    isDict v = false := by
  cases v with
  | vDict sub => exact absurd rfl (hne sub)
  | vNull => simp [isDict]
  | vBool b => simp [isDict]
  | vNum q => simp [isDict]
  | vStr s => simp [isDict]
  | vDec s => simp [isDict]
  | vList el => simp [isDict]

theorem ddm_flattenGo_invariant :
    ∀ (items doc : Doc) (pk sep : String), (keys items).Nodup →
      (∀ p ∈ items, isDict p.2 = false) →
      (keys (DynamicDashboardMongo.flattenGo items doc pk sep)).Nodup ∧
      (∀ p ∈ DynamicDashboardMongo.flattenGo items doc pk sep, isDict p.2 = false) := by
  intro items doc pk sep
  induction items, doc, pk, sep using DynamicDashboardMongo.flattenGo.induct with
  | case1 items pk sep =>
    intro h1 h2
    simp only [DynamicDashboardMongo.flattenGo]
    exact ⟨h1, h2⟩
  | case2 items k sub rest pk sep ih1 ih2 =>
    intro h1 h2
    simp only [DynamicDashboardMongo.flattenGo]
    have hinner := ih1 (by simp [keys]) (by simp)
    refine ih2 (nodupKeys_updateKVs _ items h1) ?_
    exact mem_updateKVs_val (fun x => isDict x = false) _ items h2 hinner.2
  | case3 items k v rest pk sep hne ih =>
    intro h1 h2
    simp only [DynamicDashboardMongo.flattenGo]
    refine ih (nodupKeys_insertKV h1 _ _) ?_
    intro p hp
    rcases mem_insertKV_val hp with h | h
    · rw [h]
      exact ddm_isDict_false_of_ne_dict hne
    · exact h2 p h

theorem ddm_flattenGo_flat (l : Doc) :
    ∀ (items : Doc) (sep : String), (∀ p ∈ l, isDict p.2 = false) →
      DynamicDashboardMongo.flattenGo items l ("") sep = updateKVs items l := by
  induction l with
  | nil =>
    intro items sep _
    simp [DynamicDashboardMongo.flattenGo, updateKVs]
  | cons hd t ih =>
    intro items sep hl
    obtain ⟨k, v⟩ := hd
    have hhd : isDict v = false := hl (k, v) (List.mem_cons_self _ _)
    have hkey : DynamicDashboardMongo.newKey ("") sep k = k := by
      simp [DynamicDashboardMongo.newKey]
    cases v with
    | vDict sub => simp [isDict] at hhd
    | vNull =>
      simp only [DynamicDashboardMongo.flattenGo, hkey,
        ih _ _ (fun p hp => hl p (List.mem_cons_of_mem _ hp))]
      simp [updateKVs]
    | vBool b =>
      simp only [DynamicDashboardMongo.flattenGo, hkey,
        ih _ _ (fun p hp => hl p (List.mem_cons_of_mem _ hp))]
      simp [updateKVs]
    | vNum q =>
      simp only [DynamicDashboardMongo.flattenGo, hkey,
        ih _ _ (fun p hp => hl p (List.mem_cons_of_mem _ hp))]
      simp [updateKVs]
    | vStr s =>
      simp only [DynamicDashboardMongo.flattenGo, hkey,
        ih _ _ (fun p hp => hl p (List.mem_cons_of_mem _ hp))]
      simp [updateKVs]
    | vDec s =>
      simp only [DynamicDashboardMongo.flattenGo, hkey,
        ih _ _ (fun p hp => hl p (List.mem_cons_of_mem _ hp))]
      simp [updateKVs]
    | vList el =>
      simp only [DynamicDashboardMongo.flattenGo, hkey,
        ih _ _ (fun p hp => hl p (List.mem_cons_of_mem _ hp))]
      simp [updateKVs]

theorem ddm_flatten_of_flat (l : Doc) (sep : String)
    (hl : ∀ p ∈ l, isDict p.2 = false) (hnd : (keys l).Nodup) :
    DynamicDashboardMongo.safe_flatten l ("") sep = l := by
  rw [DynamicDashboardMongo.safe_flatten, ddm_flattenGo_flat l [] sep hl,
    updateKVs_eq_append l [] hnd (by simp [keys])]
  simp

theorem aa_foldl_flattenStep_nondict (l : Doc) :
    ∀ acc : Doc, (∀ p ∈ l, isDict p.2 = false) →
      l.foldl AirbnbAnalytics.flattenStep acc =
        updateKVs acc (l.map (fun kv => (kv.1, AirbnbAnalytics.safe_convert kv.2))) := by
  induction l with
  | nil =>
    intro acc _
    simp [updateKVs]
  | cons hd t ih =>
    intro acc hl
    obtain ⟨k, v⟩ := hd
    rw [List.foldl_cons, aa_flattenStep_nondict (hl (k, v) (List.mem_cons_self _ _)),
      ih _ (fun p hp => hl p (List.mem_cons_of_mem _ hp))]
    simp [updateKVs]

theorem keys_map_snd (l : Doc) (f : Value → Value) :
    keys (l.map (fun kv => (kv.1, f kv.2))) = keys l := by
  simp [keys, List.map_map]

theorem ddm_flattenGo_cons_nondict {v : Value} (hv : isDict v = false)
    (items rest : Doc) (k pk sep : String) :
    DynamicDashboardMongo.flattenGo items ((k, v) :: rest) pk sep =
      DynamicDashboardMongo.flattenGo
        (insertKV items (DynamicDashboardMongo.newKey pk sep k) v) rest pk sep := by
  cases v with
  | vDict s => simp [isDict] at hv
  | vNull => simp only [DynamicDashboardMongo.flattenGo]
  | vBool b => simp only [DynamicDashboardMongo.flattenGo]
  | vNum q => simp only [DynamicDashboardMongo.flattenGo]
  | vStr s => simp only [DynamicDashboardMongo.flattenGo]
  | vDec s => simp only [DynamicDashboardMongo.flattenGo]
  | vList el => simp only [DynamicDashboardMongo.flattenGo]

/-- C2 (confirmed): for every document with at most one level of dict nesting,
each of the three flatten functions is idempotent on it, and on an already
flat document the airbnb flatten is the identity up to the decimal-wrapper
conversion applied to the values. -/
theorem flatten_idempotent_one_level (d : Doc) (hone : oneLevel d = true) :
    AirbnbAnalytics.safe_flatten (AirbnbAnalytics.safe_flatten d) =
      AirbnbAnalytics.safe_flatten d ∧
    DynamicDashboardDf.safe_flatten (DynamicDashboardDf.safe_flatten d) =
      DynamicDashboardDf.safe_flatten d ∧
    DynamicDashboardMongo.safe_flatten
        (DynamicDashboardMongo.safe_flatten d ("") ("_")) ("") ("_") =
      DynamicDashboardMongo.safe_flatten d ("") ("_") ∧
    ((keys d).Nodup → (∀ p ∈ d, isDict p.2 = false) →
      AirbnbAnalytics.safe_flatten d =
        d.map (fun kv => (kv.1, AirbnbAnalytics.safe_convert kv.2))) := by
  refine ⟨?_, ?_, ?_, ?_⟩
  · obtain ⟨hnd, hgood⟩ := aa_flatten_invariant d hone
    exact aa_flatten_of_flat _ hgood hnd
  · obtain ⟨hnd, hgood⟩ := df_flatten_fold_invariant d [] hone (by simp [keys]) (by simp)
    exact df_flatten_of_flat _ hgood hnd
  · obtain ⟨hnd, hgood⟩ :=
      ddm_flattenGo_invariant [] d ("") ("_") (by simp [keys]) (by simp)
    exact ddm_flatten_of_flat _ ("_") hgood hnd
  · intro hnd hflat
    rw [AirbnbAnalytics.safe_flatten, aa_foldl_flattenStep_nondict d [] hflat,
      updateKVs_eq_append _ [] (by rw [keys_map_snd]; exact hnd) (by simp [keys])]
    simp

/-- Witness for C2 at a concrete one-level document. -/
theorem flatten_idempotent_one_level_witness :
    oneLevel [("price", Value.vDict [("$numberDecimal", Value.vStr ("100.5"))]),
      ("name", Value.vStr ("x"))] = true ∧
    AirbnbAnalytics.safe_flatten (AirbnbAnalytics.safe_flatten
        [("price", Value.vDict [("$numberDecimal", Value.vStr ("100.5"))]),
         ("name", Value.vStr ("x"))]) =
      AirbnbAnalytics.safe_flatten
        [("price", Value.vDict [("$numberDecimal", Value.vStr ("100.5"))]),
         ("name", Value.vStr ("x"))] ∧
    AirbnbAnalytics.safe_flatten [("a", Value.vNum 1)] =
      ([("a", Value.vNum 1)] : Doc).map
        (fun kv => (kv.1, AirbnbAnalytics.safe_convert kv.2)) :=
  ⟨by decide, (flatten_idempotent_one_level _ (by decide)).1,
    (flatten_idempotent_one_level [("a", Value.vNum 1)] (by decide)).2.2.2
      (by decide) (by decide)⟩

/-- C6 (corrected, counterexample): the flatten of dynamic_dashboard_mongo.py
does not pass a deeper dict through unchanged; it collapses all levels. -/
theorem mongo_flatten_collapses_deep :
    DynamicDashboardMongo.safe_flatten
        [("a", Value.vDict [("b", Value.vDict [("c", Value.vNum 1)])])] ("") ("_") =
      [("a_b_c", Value.vNum 1)] ∧
    DynamicDashboardMongo.safe_flatten
        [("a", Value.vDict [("b", Value.vDict [("c", Value.vNum 1)])])] ("") ("_") ≠
      [("a_b", Value.vDict [("c", Value.vNum 1)])] := by
  have h : DynamicDashboardMongo.safe_flatten
      [("a", Value.vDict [("b", Value.vDict [("c", Value.vNum 1)])])] ("") ("_") =
      [("a_b_c", Value.vNum 1)] := by
    simp [DynamicDashboardMongo.safe_flatten, DynamicDashboardMongo.flattenGo,
      DynamicDashboardMongo.newKey, updateKVs, insertKV]
  refine ⟨h, ?_⟩
  rw [h]
  decide

/-- C6 (corrected): the one-level flatteners of airbnb_analytics.py and
dynamic_dashboard_df.py merge exactly one level, passing any deeper dict
through unchanged and passing non-dict values through (with the decimal
conversion applied in the airbnb variant); the mongo flatten instead collapses
all levels of nesting. -/
theorem flatten_one_level_amended (k sk : String) (sub : List (String × Value))
    (v : Value) (hv : isDict v = false) :
    AirbnbAnalytics.safe_flatten [(k, Value.vDict [(sk, Value.vDict sub)])] =
      [(k ++ "_" ++ sk, Value.vDict sub)] ∧
    DynamicDashboardDf.safe_flatten [(k, Value.vDict [(sk, Value.vDict sub)])] =
      [(k ++ "_" ++ sk, Value.vDict sub)] ∧
    AirbnbAnalytics.safe_flatten [(k, v)] = [(k, AirbnbAnalytics.safe_convert v)] ∧
    DynamicDashboardDf.safe_flatten [(k, v)] = [(k, v)] ∧
    DynamicDashboardMongo.safe_flatten
        [("a", Value.vDict [("b", Value.vDict [("c", Value.vNum 1)])])] ("") ("_") =
      [("a_b_c", Value.vNum 1)] := by
  refine ⟨?_, ?_, ?_, ?_, ?_⟩
  · simp [AirbnbAnalytics.safe_flatten, AirbnbAnalytics.flattenStep,
      AirbnbAnalytics.safe_convert, insertKV]
  · simp [DynamicDashboardDf.safe_flatten, DynamicDashboardDf.flattenStep, insertKV]
  · rw [AirbnbAnalytics.safe_flatten, List.foldl_cons, List.foldl_nil,
      aa_flattenStep_nondict hv]
    rfl
  · rw [DynamicDashboardDf.safe_flatten, List.foldl_cons, List.foldl_nil,
      df_flattenStep_nondict hv]
    rfl
  · simp [DynamicDashboardMongo.safe_flatten, DynamicDashboardMongo.flattenGo,
      DynamicDashboardMongo.newKey, updateKVs, insertKV]

/-- Witness for C6 at a concrete non-dict value. -/
theorem flatten_one_level_amended_witness :
    isDict (Value.vStr ("y")) = false ∧
    AirbnbAnalytics.safe_flatten [("x", Value.vStr ("y"))] =
      [("x", AirbnbAnalytics.safe_convert (Value.vStr ("y")))] :=
  ⟨by decide, (flatten_one_level_amended ("x") ("z") [] (Value.vStr ("y")) (by decide)).2.2.1⟩

/-- C9 (confirmed): when a top-level key and a nested entry flatten to the same
compound key, the flatteners keep only the value whose source entry occurs
later in the document, silently overwriting the earlier one, so flattening is
not injective. -/
theorem flatten_collision_last_wins (v1 v2 : Value) (h1 : isDict v1 = false)
    (h2 : isDict v2 = false) :
    AirbnbAnalytics.safe_flatten [("a_b", v1), ("a", Value.vDict [("b", v2)])] =
      [("a_b", AirbnbAnalytics.safe_convert v2)] ∧
    AirbnbAnalytics.safe_flatten [("a", Value.vDict [("b", v2)]), ("a_b", v1)] =
      [("a_b", AirbnbAnalytics.safe_convert v1)] ∧
    AirbnbAnalytics.safe_flatten [("a_b", Value.vNum 2)] =
      AirbnbAnalytics.safe_flatten [("a", Value.vDict [("b", Value.vNum 2)])] ∧
    ([("a_b", Value.vNum 2)] : Doc) ≠ [("a", Value.vDict [("b", Value.vNum 2)])] ∧
    DynamicDashboardMongo.safe_flatten [("a_b", v1), ("a", Value.vDict [("b", v2)])]
        ("") ("_") = [("a_b", v2)] ∧
    (∀ (front : Doc) (k : String) (w : Value), isDict w = false →
      AirbnbAnalytics.safe_flatten (front ++ [(k, w)]) =
        insertKV (AirbnbAnalytics.safe_flatten front) k
          (AirbnbAnalytics.safe_convert w)) ∧
    (∀ (front : Doc) (k sk : String) (w : Value),
      AirbnbAnalytics.safe_flatten (front ++ [(k, Value.vDict [(sk, w)])]) =
        insertKV (AirbnbAnalytics.safe_flatten front) (k ++ "_" ++ sk)
          (AirbnbAnalytics.safe_convert w)) ∧
    (∀ (front : Doc) (k sk : String) (w : Value),
      lookupKV (AirbnbAnalytics.safe_flatten (front ++ [(k, Value.vDict [(sk, w)])]))
          (k ++ "_" ++ sk) =
        some (AirbnbAnalytics.safe_convert w)) := by
  have hB : ∀ (front : Doc) (k sk : String) (w : Value),
      AirbnbAnalytics.safe_flatten (front ++ [(k, Value.vDict [(sk, w)])]) =
        insertKV (AirbnbAnalytics.safe_flatten front) (k ++ "_" ++ sk)
          (AirbnbAnalytics.safe_convert w) := by
    intro front k sk w
    rw [AirbnbAnalytics.safe_flatten, AirbnbAnalytics.safe_flatten, List.foldl_append,
      List.foldl_cons, List.foldl_nil, aa_flattenStep_dict]
    simp [updateKVs]
  refine ⟨?_, ?_, by decide, by decide, ?_, ?_, hB, ?_⟩
  · rw [AirbnbAnalytics.safe_flatten, List.foldl_cons, List.foldl_cons, List.foldl_nil,
      aa_flattenStep_nondict h1, aa_flattenStep_dict]
    simp [updateKVs, insertKV]
  · rw [AirbnbAnalytics.safe_flatten, List.foldl_cons, List.foldl_cons, List.foldl_nil,
      aa_flattenStep_dict]
    rw [aa_flattenStep_nondict h1]
    simp [updateKVs, insertKV]
  · rw [DynamicDashboardMongo.safe_flatten, ddm_flattenGo_cons_nondict h1]
    simp only [DynamicDashboardMongo.flattenGo]
    rw [ddm_flattenGo_cons_nondict h2]
    simp [DynamicDashboardMongo.flattenGo, DynamicDashboardMongo.newKey, updateKVs,
      insertKV]
  · intro front k w hw
    rw [AirbnbAnalytics.safe_flatten, AirbnbAnalytics.safe_flatten, List.foldl_append,
      List.foldl_cons, List.foldl_nil, aa_flattenStep_nondict hw]
  · intro front k sk w
    rw [hB]
    exact lookup_insertKV_self _ _ _

/-- Witness for C9 at concrete colliding values. -/
theorem flatten_collision_last_wins_witness :
    isDict (Value.vNum 1) = false ∧
    AirbnbAnalytics.safe_flatten
        [("a_b", Value.vNum 1), ("a", Value.vDict [("b", Value.vStr ("z"))])] =
      [("a_b", AirbnbAnalytics.safe_convert (Value.vStr ("z")))] :=
  ⟨by decide,
    (flatten_collision_last_wins (Value.vNum 1) (Value.vStr ("z"))
      (by decide) (by decide)).1⟩

/-- C1 (corrected, counterexample): flattening the extended-JSON style document
does produce the compound key, but the value stays the string it was;
safe_convert only converts Decimal128 wrapper objects, not strings inside a
nested dict. -/
theorem flatten_decimal_dict_yields_string :
    AirbnbAnalytics.safe_flatten
        [("price", Value.vDict [("$numberDecimal", Value.vStr ("100.5"))])] =
      [("price_$numberDecimal", Value.vStr ("100.5"))] ∧
    AirbnbAnalytics.safe_flatten
        [("price", Value.vDict [("$numberDecimal", Value.vStr ("100.5"))])] ≠
      [("price_$numberDecimal", Value.vNum (201 / 2))] := by
  constructor
  · decide
  · decide

theorem aa_lookup_processRow (data : List Doc) (row : Doc) (src dest : String)
    (t : AirbnbAnalytics.DType)
    (hmem : (src, (dest, t)) ∈ AirbnbAnalytics.numeric_config) :
    lookupKV (AirbnbAnalytics.processRow data row) dest =
      some (AirbnbAnalytics.derivedValue data src t row) := by
  have hcoord : ∀ r : Doc, lookupKV r dest = some (AirbnbAnalytics.derivedValue data src t row) →
      lookupKV
        (insertKV (insertKV (insertKV r ("coordinates")
          (Value.vList [(AirbnbAnalytics.coordOf
              (lookupKV row ("address_location_coordinates"))).1,
            (AirbnbAnalytics.coordOf
              (lookupKV row ("address_location_coordinates"))).2]))
          ("lat") (AirbnbAnalytics.coordOf
              (lookupKV row ("address_location_coordinates"))).1)
          ("lon") (AirbnbAnalytics.coordOf
              (lookupKV row ("address_location_coordinates"))).2) dest =
        some (AirbnbAnalytics.derivedValue data src t row) := by
    intro r hr
    have hd1 : ("coordinates" : String) ≠ dest := by
      simp [AirbnbAnalytics.numeric_config] at hmem
      rcases hmem with h | h | h | h | h | h | h <;> rw [h.2.1] <;> decide
    have hd2 : ("lat" : String) ≠ dest := by
      simp [AirbnbAnalytics.numeric_config] at hmem
      rcases hmem with h | h | h | h | h | h | h <;> rw [h.2.1] <;> decide
    have hd3 : ("lon" : String) ≠ dest := by
      simp [AirbnbAnalytics.numeric_config] at hmem
      rcases hmem with h | h | h | h | h | h | h <;> rw [h.2.1] <;> decide
    rw [lookup_insertKV_ne _ _ hd3, lookup_insertKV_ne _ _ hd2,
      lookup_insertKV_ne _ _ hd1, hr]
  have hmain : lookupKV
      (AirbnbAnalytics.numeric_config.foldl
        (fun r cfg => insertKV r cfg.2.1 (AirbnbAnalytics.derivedValue data cfg.1 cfg.2.2 row))
        row) dest = some (AirbnbAnalytics.derivedValue data src t row) := by
    simp only [AirbnbAnalytics.numeric_config, List.foldl_cons, List.foldl_nil]
    simp [AirbnbAnalytics.numeric_config] at hmem
    rcases hmem with h | h | h | h | h | h | h <;>
      obtain ⟨h1, h2, h3⟩ := h <;> subst h1 <;> subst h2 <;> subst h3 <;>
      simp [lookup_insertKV_self, lookup_insertKV_ne]
  rw [AirbnbAnalytics.processRow]
  by_cases hc : AirbnbAnalytics.hasColumn data ("address_location_coordinates") = true
  · simp only [hc, if_true]
    exact hcoord _ hmain
  · simp only [Bool.not_eq_true] at hc
    simp only [hc, Bool.false_eq_true, if_false]
    exact hmain

theorem parseNum_100_5 : parseNum ("100.5") =
    some ((((100 : Nat) : Rat)) + (((5 : Nat) : Rat)) /
      ((10 : Rat) ^ (['5'] : List Char).length)) := rfl

theorem parseNum_100_5_val : parseNum ("100.5") = some ((201 : Rat) / 2) := by
  rw [parseNum_100_5]
  norm_num

/-- C1 (corrected): flattening that document yields the string value, and the
tabular coercion of safe_dataframe then still derives the price column as the
floating point number 100.5 = 201/2. -/
theorem flatten_decimal_dict_amended :
    AirbnbAnalytics.safe_flatten
        [("price", Value.vDict [("$numberDecimal", Value.vStr ("100.5"))])] =
      [("price_$numberDecimal", Value.vStr ("100.5"))] ∧
    (AirbnbAnalytics.safe_dataframe
        [AirbnbAnalytics.safe_flatten
          [("price", Value.vDict [("$numberDecimal", Value.vStr ("100.5"))])]]).map
        (fun r => lookupKV r ("price")) =
      [some (Value.vNum (201 / 2))] := by
  have hflat : AirbnbAnalytics.safe_flatten
      [("price", Value.vDict [("$numberDecimal", Value.vStr ("100.5"))])] =
      [("price_$numberDecimal", Value.vStr ("100.5"))] := by decide
  refine ⟨hflat, ?_⟩
  rw [hflat, AirbnbAnalytics.safe_dataframe, List.map_cons, List.map_nil, List.map_cons,
    List.map_nil,
    aa_lookup_processRow _ _ ("price_$numberDecimal") ("price")
      AirbnbAnalytics.DType.dfloat (by decide)]
  rw [AirbnbAnalytics.derivedValue]
  have hcol : AirbnbAnalytics.hasColumn
      [[("price_$numberDecimal", Value.vStr ("100.5"))]]
      ("price_$numberDecimal") = true := by decide
  rw [hcol, if_pos rfl]
  have hlook : lookupKV [("price_$numberDecimal", Value.vStr ("100.5"))]
      ("price_$numberDecimal") = some (Value.vStr ("100.5")) := by decide
  rw [hlook]
  simp [AirbnbAnalytics.to_numeric, parseNum_100_5_val, AirbnbAnalytics.castDType]

/-- C3 (confirmed): for every table and configured coercion, a row whose source
column is absent from the whole table, or whose own source value is missing or
unparseable as a number, gets the configured default in the derived
destination column of safe_dataframe: 0.0 for float targets, 0 for int
targets, false for the bool target. -/
theorem safe_dataframe_defaults (data : List Doc) (row : Doc) (src dest : String)
    (t : AirbnbAnalytics.DType) (hrow : row ∈ data)
    (hmem : (src, (dest, t)) ∈ AirbnbAnalytics.numeric_config)
    (hmiss : AirbnbAnalytics.hasColumn data src = false ∨
      ((lookupKV row src).bind AirbnbAnalytics.to_numeric) = none) :
    AirbnbAnalytics.processRow data row ∈ AirbnbAnalytics.safe_dataframe data ∧
    lookupKV (AirbnbAnalytics.processRow data row) dest =
      some (match t with
            | AirbnbAnalytics.DType.dfloat => Value.vNum 0
            | AirbnbAnalytics.DType.dint => Value.vNum 0
            | AirbnbAnalytics.DType.dbool => Value.vBool false) := by
  constructor
  · rw [AirbnbAnalytics.safe_dataframe]
    exact List.mem_map_of_mem _ hrow
  · rw [aa_lookup_processRow data row src dest t hmem]
    refine congrArg some ?_
    have hz : AirbnbAnalytics.derivedValue data src t row =
        AirbnbAnalytics.castDType t AirbnbAnalytics.DEFAULT_NUMERIC := by
      rcases hmiss with h | h
      · rw [AirbnbAnalytics.derivedValue, h]
        simp
      · rw [AirbnbAnalytics.derivedValue, h]
        by_cases hc : AirbnbAnalytics.hasColumn data src = true
        · simp [hc]
        · simp [hc]
    rw [hz]
    cases t with
    | dfloat => rfl
    | dint =>
      simp [AirbnbAnalytics.castDType, AirbnbAnalytics.DEFAULT_NUMERIC, Int.zero_tdiv]
    | dbool =>
      simp [AirbnbAnalytics.castDType, AirbnbAnalytics.DEFAULT_NUMERIC]

/-- Witness for C3: a table whose rows lack the price source column entirely. -/
theorem safe_dataframe_defaults_witness :
    [("x", Value.vNum 1)] ∈ [[("x", Value.vNum 1)]] ∧
    AirbnbAnalytics.hasColumn [[("x", Value.vNum 1)]] ("price_$numberDecimal") = false ∧
    lookupKV (AirbnbAnalytics.processRow [[("x", Value.vNum 1)]] [("x", Value.vNum 1)])
      ("price") = some (Value.vNum 0) := by
  refine ⟨by decide, by decide, ?_⟩
  exact (safe_dataframe_defaults [[("x", Value.vNum 1)]] [("x", Value.vNum 1)]
    ("price_$numberDecimal") ("price") AirbnbAnalytics.DType.dfloat
    (by decide) (by decide) (Or.inl (by decide))).2

/-- C7 (corrected, counterexample): the chart handler of dynamic_dashboard_df.py
replaces the exception by a warning that embeds the exception text verbatim, so
the warning is not a static string and does include the underlying error. -/
theorem df_chart_warning_embeds_error :
    DynamicDashboardDf.renderChart (Except.error ("boom")) =
      RenderOutcome.warning (DynamicDashboardDf.chartWarningPrefix ++ "boom") ∧
    DynamicDashboardDf.renderChart (Except.error ("a")) ≠
      DynamicDashboardDf.renderChart (Except.error ("b")) := by
  constructor
  · rfl
  · decide

/-- C7 (corrected): every rendering operation catches any exception and returns
normally, and the five fixed panel renderers of airbnb_analytics.py emit static
warnings independent of the error; the chart renderer of
dynamic_dashboard_df.py instead emits a warning embedding str(e). -/
theorem render_error_handling_amended :
    (∀ e : String,
      AirbnbAnalytics.render_metrics (Except.error e) =
        RenderOutcome.warning ("Metrics unavailable") ∧
      AirbnbAnalytics.render_price_analysis (Except.error e) =
        RenderOutcome.warning ("Price analysis unavailable") ∧
      AirbnbAnalytics.render_review_analysis (Except.error e) =
        RenderOutcome.warning ("Review analysis unavailable") ∧
      AirbnbAnalytics.render_amenities (Except.error e) =
        RenderOutcome.warning ("Amenities analysis unavailable") ∧
      AirbnbAnalytics.render_geo (Except.error e) =
        RenderOutcome.warning ("Map unavailable")) ∧
    (∀ e : String,
      DynamicDashboardDf.renderChart (Except.error e) =
        RenderOutcome.warning (DynamicDashboardDf.chartWarningPrefix ++ e)) :=
  ⟨fun _ => ⟨rfl, rfl, rfl, rfl, rfl⟩, fun _ => rfl⟩

/-- C8 (confirmed): every document-fetching query of the three dashboards
returns at most 1000 rows: the find queries are limited by
MAX_SAMPLE_SIZE = 1000 (airbnb) and 1000 (df), the visualization pipeline ends
with a $limit 1000 stage, the field-discovery pipeline ends with a $limit 10
stage, and a null-key $group emits at most one row. -/
theorem queries_bounded_by_limit :
    AirbnbAnalytics.MAX_SAMPLE_SIZE = 1000 ∧
    (∀ collection : List Doc, (AirbnbAnalytics.loadedData collection).length ≤ 1000) ∧
    (∀ collection : List Doc, (DynamicDashboardDf.loadedRows collection).length ≤ 1000) ∧
    (∀ (docs : List Doc) (fields : List String),
      (DynamicDashboardMongo.visQueryResults docs fields).length ≤ 1000) ∧
    (∀ sampled : List Doc, (DynamicDashboardMongo.sampleLimited sampled).length ≤ 1000) ∧
    (∀ (gs : Doc) (docs : List Doc),
      (DynamicDashboardMongo.runGroupNullId gs docs).length ≤ 1000) := by
  refine ⟨rfl, ?_, ?_, ?_, ?_, ?_⟩
  · intro c
    simp [AirbnbAnalytics.loadedData, AirbnbAnalytics.MAX_SAMPLE_SIZE, List.length_take]
  · intro c
    simp [DynamicDashboardDf.loadedRows, List.length_take]
  · intro docs fields
    simp [DynamicDashboardMongo.visQueryResults, List.length_take]
  · intro s
    simp [DynamicDashboardMongo.sampleLimited, List.length_take]
  · intro gs docs
    rw [DynamicDashboardMongo.runGroupNullId]
    by_cases h : docs.isEmpty <;> simp [h]

/-- C10 (corrected, counterexample): on an empty result list with no required
fields, validate_fields returns True; the comprehension never evaluates
data[0], so no IndexError is raised there. -/
theorem validate_fields_empty_counterexample :
    DynamicDashboardMongo.validate_fields [] [] = some true ∧
    DynamicDashboardMongo.validate_fields [] [] ≠ none :=
  ⟨rfl, by decide⟩

/-- C10 (corrected): validate_fields inspects only the first row: on a
nonempty result it returns true exactly when every required field is a key of
the first document (and never raises); on an empty result it raises IndexError
exactly when there is at least one required field, returning true otherwise;
and its outcome depends only on the first element of the result list. -/
theorem validate_fields_first_row_only (data : List Doc) (req : List String) :
    (∀ (d0 : Doc) (rest : List Doc), data = d0 :: rest →
      (DynamicDashboardMongo.validate_fields data req = some true ↔
        ∀ f ∈ req, (lookupKV d0 f).isSome = true)) ∧
    (∀ (d0 : Doc) (rest : List Doc), data = d0 :: rest →
      DynamicDashboardMongo.validate_fields data req ≠ none) ∧
    (data = [] → DynamicDashboardMongo.validate_fields data req =
      if req.isEmpty then some true else none) ∧
    (∀ data2 : List Doc, data.head? = data2.head? →
      DynamicDashboardMongo.validate_fields data req =
        DynamicDashboardMongo.validate_fields data2 req) := by
  refine ⟨?_, ?_, ?_, ?_⟩
  · rintro d0 rest rfl
    cases req with
    | nil => simp [DynamicDashboardMongo.validate_fields]
    | cons f fs =>
      rw [DynamicDashboardMongo.validate_fields]
      simp [List.all_eq_true]
  · rintro d0 rest rfl
    cases req with
    | nil => simp [DynamicDashboardMongo.validate_fields]
    | cons f fs => simp [DynamicDashboardMongo.validate_fields]
  · rintro rfl
    cases req with
    | nil => simp [DynamicDashboardMongo.validate_fields]
    | cons f fs => simp [DynamicDashboardMongo.validate_fields]
  · intro data2 hh
    cases req with
    | nil => simp [DynamicDashboardMongo.validate_fields]
    | cons f fs =>
      cases data with
      | nil =>
        cases data2 with
        | nil => rfl
        | cons d2 t2 => simp at hh
      | cons d t =>
        cases data2 with
        | nil => simp at hh
        | cons d2 t2 =>
          simp only [List.head?_cons, Option.some.injEq] at hh
          simp [DynamicDashboardMongo.validate_fields, hh]

/-- Witness for C10: a field present in the first row but absent from the
second still validates as true. -/
theorem validate_fields_first_row_only_witness :
    DynamicDashboardMongo.validate_fields [[("x", Value.vNum 1)], []] [("x")] =
      some true :=
  ((validate_fields_first_row_only [[("x", Value.vNum 1)], []] [("x")]).1 _ _
    rfl).mpr (by decide)

/-! Lemmas for the metric computation claims. -/

theorem toLower_count_str :
    DynamicDashboardMongo.strToLower ("Count") = "count" := rfl

theorem toLower_unique_count_str :
    DynamicDashboardMongo.strToLower ("Unique Count") = "unique count" := rfl

theorem build_metric_group_count (field : String) :
    DynamicDashboardMongo.build_metric_group field [("Count")] =
      some [("_id", Value.vNull), ("count", Value.vDict [("$sum", Value.vNum 1)])] := rfl

theorem evalOperand_const_one (doc : Doc) :
    DynamicDashboardMongo.evalOperand doc (Value.vNum 1) = some (Value.vNum 1) := rfl

theorem accumSum_one (docs : List Doc) :
    DynamicDashboardMongo.accumSum (Value.vNum 1) docs =
      Value.vNum ((docs.length : Nat) : Rat) := by
  have haux : ∀ (ds : List Doc) (a : Rat),
      ds.foldl (fun acc doc =>
        match DynamicDashboardMongo.evalOperand doc (Value.vNum 1) with
        | some (Value.vNum q) => acc + q
        | _ => acc) a = a + ((ds.length : Nat) : Rat) := by
    intro ds
    induction ds with
    | nil =>
      intro a
      simp
    | cons d t ih =>
      intro a
      rw [List.foldl_cons, evalOperand_const_one]
      simp only [ih, List.length_cons]
      push_cast
      ring
  rw [DynamicDashboardMongo.accumSum, haux docs 0]
  simp

/-- C4 (corrected): on a nonempty collection, the Count metric of
dynamic_dashboard_mongo.py emits the accumulator sum-of-1 and displays exactly
the number of documents, independent of the chosen field. -/
theorem count_metric_counts (docs : List Doc) (field : String) (hne : docs ≠ []) :
    DynamicDashboardMongo.build_metric_group field [("Count")] =
      some [("_id", Value.vNull), ("count", Value.vDict [("$sum", Value.vNum 1)])] ∧
    DynamicDashboardMongo.displayedMetric docs field [("Count")] ("Count") =
      some (Value.vNum ((docs.length : Nat) : Rat)) := by
  refine ⟨build_metric_group_count field, ?_⟩
  have hie : docs.isEmpty = false := by
    cases docs with
    | nil => exact absurd rfl hne
    | cons d t => rfl
  rw [DynamicDashboardMongo.displayedMetric, DynamicDashboardMongo.metricResultDoc,
    build_metric_group_count field, Option.some_bind, DynamicDashboardMongo.runGroupNullId,
    hie]
  simp only [Bool.false_eq_true, if_false, List.map_cons, List.map_nil, List.head?_cons,
    Option.some_bind]
  rw [DynamicDashboardMongo.runAccum]
  simp only [if_pos rfl, accumSum_one]
  simp [lookupKV, DynamicDashboardMongo.strToLower]

/-- C4 (corrected, counterexample): on an empty collection the metric code
raises IndexError when indexing the empty aggregation result, so no value
(in particular not 0) is displayed, contradicting the claim for every
collection. -/
theorem count_metric_empty_counterexample :
    DynamicDashboardMongo.displayedMetric [] ("price") [("Count")] ("Count") = none ∧
    DynamicDashboardMongo.displayedMetric [] ("price") [("Count")] ("Count") ≠
      some (Value.vNum 0) := by
  have h : DynamicDashboardMongo.displayedMetric [] ("price") [("Count")] ("Count") =
      none := rfl
  exact ⟨h, by simp [h]⟩

/-- Witness for C4 on a two-document collection. -/
theorem count_metric_counts_witness :
    ([[("a", Value.vNum 1)], []] : List Doc) ≠ [] ∧
    DynamicDashboardMongo.displayedMetric [[("a", Value.vNum 1)], []] ("price")
      [("Count")] ("Count") = some (Value.vNum (((2 : Nat) : Rat))) := by
  refine ⟨by decide, ?_⟩
  exact (count_metric_counts [[("a", Value.vNum 1)], []] ("price") (by decide)).2

theorem isPrefixOf_self (l : List Char) : l.isPrefixOf l = true := by
  induction l with
  | nil => rfl
  | cons c cs ih => simp [List.isPrefixOf, ih]

theorem listReplace_self (pat rep : List Char) (h : pat ≠ []) :
    DynamicDashboardMongo.listReplace pat pat rep = rep := by
  obtain ⟨c, cs, rfl⟩ : ∃ c cs, pat = c :: cs := by
    cases pat with
    | nil => exact absurd rfl h
    | cons c cs => exact ⟨c, cs, rfl⟩
  rw [DynamicDashboardMongo.listReplace]
  rw [dif_pos ⟨h, isPrefixOf_self (c :: cs)⟩]
  rw [List.drop_length]
  rw [DynamicDashboardMongo.listReplace]
  simp

theorem strReplace_dollar_value (rep : String) :
    DynamicDashboardMongo.strReplace ("$value") ("$value") rep = rep := by
  rw [DynamicDashboardMongo.strReplace,
    listReplace_self (("$value" : String).toList) rep.toList (by decide)]
  obtain ⟨d⟩ := rep
  rfl

theorem build_metric_group_unique (field : String) :
    DynamicDashboardMongo.build_metric_group field [("Unique Count")] =
      some [("_id", Value.vNull),
        ("unique count", Value.vDict [("$addToSet", Value.vStr ("$" ++ field))])] := by
  have hlook : lookupKV DynamicDashboardMongo.METRIC_OPERATIONS ("Unique Count") =
      some ⟨"$addToSet", Value.vStr ("$value"), true⟩ := rfl
  rw [DynamicDashboardMongo.build_metric_group, List.foldl_cons, List.foldl_nil,
    Option.some_bind, DynamicDashboardMongo.buildMetricStep, hlook]
  simp only [if_neg (by decide : ¬("Unique Count" : String) = "Count"), if_pos rfl,
    strReplace_dollar_value, toLower_unique_count_str]
  rfl

theorem evalOperand_dollar_field (doc : Doc) (field : String) :
    DynamicDashboardMongo.evalOperand doc (Value.vStr ("$" ++ field)) =
      lookupKV doc field := by
  obtain ⟨fd⟩ := field
  rfl

theorem addToSet_fold_spec (field : String) (docs : List Doc) :
    ∀ acc : List Value, acc.Nodup →
      (docs.foldl (fun acc doc =>
        match DynamicDashboardMongo.evalOperand doc (Value.vStr ("$" ++ field)) with
        | some v => if v ∈ acc then acc else acc ++ [v]
        | none => acc) acc).Nodup ∧
      (∀ w : Value, w ∈ docs.foldl (fun acc doc =>
          match DynamicDashboardMongo.evalOperand doc (Value.vStr ("$" ++ field)) with
          | some v => if v ∈ acc then acc else acc ++ [v]
          | none => acc) acc ↔
        (w ∈ acc ∨ w ∈ docs.filterMap (fun d => lookupKV d field))) := by
  induction docs with
  | nil =>
    intro acc h
    simp [h]
  | cons d t ih =>
    intro acc hnd
    rw [List.foldl_cons, evalOperand_dollar_field]
    cases hl : lookupKV d field with
    | none =>
      obtain ⟨ih1, ih2⟩ := ih acc hnd
      refine ⟨ih1, ?_⟩
      intro w
      rw [ih2 w]
      simp [List.filterMap_cons, hl]
    | some v =>
      by_cases hv : v ∈ acc
      · simp only [if_pos hv]
        obtain ⟨ih1, ih2⟩ := ih acc hnd
        refine ⟨ih1, ?_⟩
        intro w
        rw [ih2 w]
        simp only [List.filterMap_cons, hl, List.mem_cons]
        constructor
        · rintro (h | h)
          · exact Or.inl h
          · exact Or.inr (Or.inr h)
        · rintro (h | h | h)
          · exact Or.inl h
          · rw [h]
            exact Or.inl hv
          · exact Or.inr h
      · simp only [if_neg hv]
        have hnd2 : (acc ++ [v]).Nodup := by
          simp [List.nodup_append, hnd, hv]
        obtain ⟨ih1, ih2⟩ := ih (acc ++ [v]) hnd2
        refine ⟨ih1, ?_⟩
        intro w
        rw [ih2 w]
        simp only [List.filterMap_cons, hl, List.mem_cons, List.mem_append,
          List.mem_singleton]
        tauto

theorem accumAddToSet_card (field : String) (docs : List Doc) :
    DynamicDashboardMongo.accumAddToSet (Value.vStr ("$" ++ field)) docs =
      Value.vList (docs.foldl (fun acc doc =>
        match DynamicDashboardMongo.evalOperand doc (Value.vStr ("$" ++ field)) with
        | some v => if v ∈ acc then acc else acc ++ [v]
        | none => acc) []) ∧
    (docs.foldl (fun acc doc =>
        match DynamicDashboardMongo.evalOperand doc (Value.vStr ("$" ++ field)) with
        | some v => if v ∈ acc then acc else acc ++ [v]
        | none => acc) []).length =
      (docs.filterMap (fun d => lookupKV d field)).dedup.length := by
  refine ⟨rfl, ?_⟩
  obtain ⟨h1, h2⟩ := addToSet_fold_spec field docs [] List.nodup_nil
  have hperm : (docs.foldl (fun acc doc =>
      match DynamicDashboardMongo.evalOperand doc (Value.vStr ("$" ++ field)) with
      | some v => if v ∈ acc then acc else acc ++ [v]
      | none => acc) []).Perm
      (docs.filterMap (fun d => lookupKV d field)).dedup := by
    refine (List.perm_ext_iff_of_nodup h1 (List.nodup_dedup _)).mpr ?_
    intro w
    rw [h2 w]
    simp [List.mem_dedup]
  exact hperm.length_eq

/-- C5 (corrected): on a nonempty collection, the Unique Count metric of
dynamic_dashboard_mongo.py emits an $addToSet accumulator over the chosen
field and displays the number of distinct values of that field across the
documents that carry it. -/
theorem unique_count_metric (docs : List Doc) (field : String) (hne : docs ≠ []) :
    DynamicDashboardMongo.build_metric_group field [("Unique Count")] =
      some [("_id", Value.vNull),
        ("unique count", Value.vDict [("$addToSet", Value.vStr ("$" ++ field))])] ∧
    DynamicDashboardMongo.displayedMetric docs field [("Unique Count")]
        ("Unique Count") =
      some (Value.vNum
        ((((docs.filterMap (fun d => lookupKV d field)).dedup.length : Nat)) : Rat)) := by
  refine ⟨build_metric_group_unique field, ?_⟩
  have hie : docs.isEmpty = false := by
    cases docs with
    | nil => exact absurd rfl hne
    | cons d t => rfl
  rw [DynamicDashboardMongo.displayedMetric, DynamicDashboardMongo.metricResultDoc,
    build_metric_group_unique field, Option.some_bind,
    DynamicDashboardMongo.runGroupNullId, hie]
  simp only [Bool.false_eq_true, if_false, List.map_cons, List.map_nil, List.head?_cons,
    Option.some_bind]
  rw [DynamicDashboardMongo.runAccum]
  simp only [if_neg (by decide : ¬("$addToSet" : String) = "$sum"), if_pos rfl]
  obtain ⟨hrep, hlen⟩ := accumAddToSet_card field docs
  rw [DynamicDashboardMongo.accumAddToSet]
  simp only [if_pos rfl, toLower_unique_count_str]
  simp [lookupKV, hlen]

/-- C5 (corrected, counterexample): on an empty collection the metric code
raises IndexError when indexing the empty aggregation result, so no value (in
particular not 0) is displayed. -/
theorem unique_count_empty_counterexample :
    DynamicDashboardMongo.displayedMetric [] ("price") [("Unique Count")]
      ("Unique Count") = none ∧
    DynamicDashboardMongo.displayedMetric [] ("price") [("Unique Count")]
      ("Unique Count") ≠ some (Value.vNum 0) := by
  have h : DynamicDashboardMongo.displayedMetric [] ("price") [("Unique Count")]
      ("Unique Count") = none := by
    rw [DynamicDashboardMongo.displayedMetric, DynamicDashboardMongo.metricResultDoc]
    have hrun : ∀ gs : Doc,
        (DynamicDashboardMongo.runGroupNullId gs ([] : List Doc)).head? = none :=
      fun gs => rfl
    cases hb : DynamicDashboardMongo.build_metric_group ("price") [("Unique Count")] with
    | none => rfl
    | some gs => simp [hrun]
  exact ⟨h, by simp [h]⟩

/-- Witness for C5: four documents with three present price values, two of
them distinct. -/
theorem unique_count_metric_witness :
    ([[("price", Value.vStr ("x"))], [("price", Value.vStr ("x"))],
      [("price", Value.vStr ("y"))], []] : List Doc) ≠ [] ∧
    DynamicDashboardMongo.displayedMetric
      [[("price", Value.vStr ("x"))], [("price", Value.vStr ("x"))],
       [("price", Value.vStr ("y"))], []] ("price") [("Unique Count")]
      ("Unique Count") = some (Value.vNum (((2 : Nat)) : Rat)) := by
  refine ⟨by decide, ?_⟩
  have h := (unique_count_metric
    [[("price", Value.vStr ("x"))], [("price", Value.vStr ("x"))],
     [("price", Value.vStr ("y"))], []] ("price") (by decide)).2
  have hl : ((([[("price", Value.vStr ("x"))], [("price", Value.vStr ("x"))],
      [("price", Value.vStr ("y"))], []] : List Doc).filterMap
      (fun d => lookupKV d ("price"))).dedup.length : Nat) = 2 := by decide
  rw [hl] at h
  exact h
